import Mathlib

/-!
Verification of the virtualized canvas grid engine (CanvasTable).

The definitions below are a shallow embedding of the JavaScript source
(the advanced variant in src/unnamed/part_000 and, where cited, the older
variant in src/vite_Vue/src/components/CanvasTable.vue).  Pixel quantities
are modelled as rationals (JS numbers, excluding NaN/Infinity edge cases),
text as lists of characters, and the abstract canvas measurement context
as a function from character lists to rationals.
-/

namespace CanvasTable

/-! ## Viewport / scroll model (part_000)

Configuration held fixed while scroll events are processed: the data
length, row/header geometry, the container's client sizes, and the total
resolved column width (an input of the viewport model, per spec section 4.3).
-/

structure ScrollCfg where
  dataLen : ℕ
  rowHeight : ℚ
  headerHeight : ℚ
  clientHeight : ℚ
  containerWidth : ℚ
  totalWidth : ℚ

/-- contentHeight = props.data.length * props.rowHeight -/
def contentHeight (cfg : ScrollCfg) : ℚ := (cfg.dataLen : ℚ) * cfg.rowHeight

/-- containerHeight in the handlers: tableContainer.clientHeight - headerHeight -/
def viewportHeight (cfg : ScrollCfg) : ℚ := cfg.clientHeight - cfg.headerHeight

/-- thumbHeight computed property (part_000 lines 103-111). -/
def thumbHeight (cfg : ScrollCfg) : ℚ :=
  max 40 ((viewportHeight cfg / contentHeight cfg) * viewportHeight cfg)

/-- showScrollbar computed property (part_000 lines 216-220). -/
def showScrollbarV (cfg : ScrollCfg) : Bool :=
  decide (viewportHeight cfg < contentHeight cfg)

/-- horizontalThumbWidth computed property (part_000 lines 230-234);
`!containerWidth.value || !totalWidth.value` is JS zero-falsiness. -/
def horizontalThumbWidth (cfg : ScrollCfg) : ℚ :=
  if cfg.containerWidth = 0 ∨ cfg.totalWidth = 0 then 40
  else max 40 ((cfg.containerWidth / cfg.totalWidth) *
    (cfg.containerWidth - (if showScrollbarV cfg then 12 else 0)))

/-- The mutable scroll/drag state of one engine instance. -/
structure ScrollState where
  scrollTop : ℚ
  scrollLeft : ℚ
  isDraggingScroll : Bool
  startDragY : ℚ
  startScrollTop : ℚ
  isDraggingHorizontalScroll : Bool
  startDragX : ℚ
  startScrollLeft : ℚ

def initScrollState : ScrollState :=
  { scrollTop := 0, scrollLeft := 0, isDraggingScroll := false,
    startDragY := 0, startScrollTop := 0, isDraggingHorizontalScroll := false,
    startDragX := 0, startScrollLeft := 0 }

/-- Wheel and scrollbar-drag events reaching the viewport model. -/
inductive ScrollEvent where
  | wheel (deltaX deltaY : ℚ) (shiftKey : Bool)
  | scrollStart (clientY : ℚ)
  | scrollMove (clientY : ℚ)
  | scrollEnd
  | hScrollStart (clientX : ℚ)
  | hScrollMove (clientX : ℚ)
  | hScrollEnd

/-- handleWheel (part_000 lines 627-643). -/
def handleWheel (cfg : ScrollCfg) (s : ScrollState) (dx dy : ℚ) (shift : Bool) :
    ScrollState :=
  if shift = true ∨ (dx ≠ 0 ∧ cfg.containerWidth < cfg.totalWidth) then
    let maxScroll := cfg.totalWidth - cfg.containerWidth
    let delta := if dx ≠ 0 then dx else dy
    { s with scrollLeft := max 0 (min (s.scrollLeft + delta) maxScroll) }
  else
    let maxScroll := contentHeight cfg - viewportHeight cfg
    { s with scrollTop := max 0 (min (s.scrollTop + dy) maxScroll) }

/-- handleScrollStart (part_000 lines 704-712). -/
def handleScrollStart (s : ScrollState) (clientY : ℚ) : ScrollState :=
  { s with isDraggingScroll := true, startDragY := clientY,
           startScrollTop := s.scrollTop }

/-- handleScrollMove (part_000 lines 714-729). -/
def handleScrollMove (cfg : ScrollCfg) (s : ScrollState) (clientY : ℚ) :
    ScrollState :=
  if s.isDraggingScroll = false then s
  else
    let deltaY := clientY - s.startDragY
    let scrollableHeight := viewportHeight cfg - thumbHeight cfg
    if scrollableHeight ≤ 0 then s
    else
      let scrollFactor := (contentHeight cfg - viewportHeight cfg) / scrollableHeight
      let newScrollTop := s.startScrollTop + deltaY * scrollFactor
      let clamped := max 0 (min newScrollTop (contentHeight cfg - viewportHeight cfg))
      { s with scrollTop := clamped }

/-- handleScrollEnd (part_000 lines 731-735). -/
def handleScrollEnd (s : ScrollState) : ScrollState :=
  { s with isDraggingScroll := false }

/-- handleHorizontalScrollStart (part_000 lines 248-256). -/
def handleHorizontalScrollStart (s : ScrollState) (clientX : ℚ) : ScrollState :=
  { s with isDraggingHorizontalScroll := true, startDragX := clientX,
           startScrollLeft := s.scrollLeft }

/-- handleHorizontalScrollMove (part_000 lines 258-272). -/
def handleHorizontalScrollMove (cfg : ScrollCfg) (s : ScrollState) (clientX : ℚ) :
    ScrollState :=
  if s.isDraggingHorizontalScroll = false then s
  else
    let deltaX := clientX - s.startDragX
    let scrollableWidth := cfg.containerWidth -
      (if showScrollbarV cfg then 12 else 0) - horizontalThumbWidth cfg
    let maxScroll := cfg.totalWidth - cfg.containerWidth
    if maxScroll ≤ 0 then s
    else
      let scrollFactor := maxScroll / scrollableWidth
      let newScrollLeft := s.startScrollLeft + deltaX * scrollFactor
      { s with scrollLeft := max 0 (min newScrollLeft maxScroll) }

/-- handleHorizontalScrollEnd (part_000 lines 274-278). -/
def handleHorizontalScrollEnd (s : ScrollState) : ScrollState :=
  { s with isDraggingHorizontalScroll := false }

/-- One event step of the viewport model. -/
def scrollStep (cfg : ScrollCfg) (s : ScrollState) : ScrollEvent → ScrollState
  | .wheel dx dy shift => handleWheel cfg s dx dy shift
  | .scrollStart y => handleScrollStart s y
  | .scrollMove y => handleScrollMove cfg s y
  | .scrollEnd => handleScrollEnd s
  | .hScrollStart x => handleHorizontalScrollStart s x
  | .hScrollMove x => handleHorizontalScrollMove cfg s x
  | .hScrollEnd => handleHorizontalScrollEnd s

/-- The state after a sequence of events, starting from the mounted state. -/
def applyScrollEvents (cfg : ScrollCfg) (evs : List ScrollEvent) : ScrollState :=
  evs.foldl (scrollStep cfg) initScrollState

/-- The clamp invariant on one scroll component. -/
def scrollInv (cfg : ScrollCfg) (s : ScrollState) : Prop :=
  0 ≤ s.scrollTop ∧ s.scrollTop ≤ max 0 (contentHeight cfg - viewportHeight cfg) ∧
  0 ≤ s.scrollLeft ∧ s.scrollLeft ≤ max 0 (cfg.totalWidth - cfg.containerWidth)

lemma clamp_nonneg (v m : ℚ) : 0 ≤ max 0 (min v m) := le_max_left 0 _

lemma clamp_le (v m : ℚ) : max 0 (min v m) ≤ max 0 m :=
  max_le (le_max_left 0 m) (le_trans (min_le_right v m) (le_max_right 0 m))

lemma scrollInv_step (cfg : ScrollCfg) (s : ScrollState) (ev : ScrollEvent)
    (h : scrollInv cfg s) : scrollInv cfg (scrollStep cfg s ev) := by
  obtain ⟨h1, h2, h3, h4⟩ := h
  cases ev with
  | wheel dx dy shift =>
    simp only [scrollStep, handleWheel]
    split
    · exact ⟨h1, h2, clamp_nonneg _ _, clamp_le _ _⟩
    · exact ⟨clamp_nonneg _ _, clamp_le _ _, h3, h4⟩
  | scrollStart y => exact ⟨h1, h2, h3, h4⟩
  | scrollMove y =>
    simp only [scrollStep, handleScrollMove]
    split
    · exact ⟨h1, h2, h3, h4⟩
    · split
      · exact ⟨h1, h2, h3, h4⟩
      · exact ⟨clamp_nonneg _ _, clamp_le _ _, h3, h4⟩
  | scrollEnd => exact ⟨h1, h2, h3, h4⟩
  | hScrollStart x => exact ⟨h1, h2, h3, h4⟩
  | hScrollMove x =>
    simp only [scrollStep, handleHorizontalScrollMove]
    split
    · exact ⟨h1, h2, h3, h4⟩
    · split
      · exact ⟨h1, h2, h3, h4⟩
      · exact ⟨h1, h2, clamp_nonneg _ _, clamp_le _ _⟩
  | hScrollEnd => exact ⟨h1, h2, h3, h4⟩

lemma scrollInv_foldl (cfg : ScrollCfg) (evs : List ScrollEvent) :
    ∀ s : ScrollState, scrollInv cfg s →
      scrollInv cfg (evs.foldl (scrollStep cfg) s) := by
  induction evs with
  | nil => intro s h; exact h
  | cons e t ih =>
    intro s h
    exact ih _ (scrollInv_step cfg s e h)

/-- Claim C1: for every sequence of wheel and scrollbar-drag events applied to
the viewport model, after each mutation scrollTop lies in
[0, max(0, contentHeight - viewportHeight)] and scrollLeft lies in
[0, max(0, totalWidth - containerWidth)]; in particular when maxScroll is
negative the scroll value clamps to 0 (the interval is then degenerate
[0, 0]). -/
theorem scroll_clamp_invariant (cfg : ScrollCfg) (evs : List ScrollEvent) :
    0 ≤ (applyScrollEvents cfg evs).scrollTop ∧
    (applyScrollEvents cfg evs).scrollTop ≤
      max 0 (contentHeight cfg - viewportHeight cfg) ∧
    0 ≤ (applyScrollEvents cfg evs).scrollLeft ∧
    (applyScrollEvents cfg evs).scrollLeft ≤
      max 0 (cfg.totalWidth - cfg.containerWidth) :=
  scrollInv_foldl cfg evs initScrollState
    ⟨le_refl 0, le_max_left 0 _, le_refl 0, le_max_left 0 _⟩

/-! ## Text metrics: ellipsis truncation (part_000 lines 738-763,
CanvasTable.vue lines 519-544; both variants are identical).

The canvas 2D measurement context is abstracted as a function from
character lists to rational pixel widths.  A context has monotonic text
widths when extending the measured prefix (under a common suffix) never
decreases the measured width. -/

/-- The string '...' appended by the truncation routines. -/
def ellipsisChars : List Char := ['.', '.', '.']

/-- A measurement context with monotonic text widths. -/
structure MeasureCtx where
  mes : List Char → ℚ
  take_mono : ∀ (t suf : List Char) (i j : ℕ), i ≤ j →
    mes (t.take i ++ suf) ≤ mes (t.take j ++ suf)

/-- The while-loop of getEllipsisText: binary search for the largest
prefix length whose truncation fits.  mid = Math.floor((left+right+1)/2);
on fit left becomes mid, otherwise right becomes mid-1. -/
def getEllipsisLoop (mes : List Char → ℚ) (text : List Char) (maxWidth : ℚ)
    (left right : ℕ) : ℕ :=
  if h : left < right then
    if mes (text.take ((left + right + 1) / 2) ++ ellipsisChars) ≤ maxWidth then
      getEllipsisLoop mes text maxWidth ((left + right + 1) / 2) right
    else
      getEllipsisLoop mes text maxWidth left ((left + right + 1) / 2 - 1)
  else left
termination_by right - left
decreasing_by
  all_goals omega

/-- getEllipsisText: returns text unchanged when it fits, otherwise the
binary-searched prefix followed by '...'. -/
def getEllipsisText (mes : List Char → ℚ) (text : List Char) (maxWidth : ℚ) :
    List Char :=
  if mes text ≤ maxWidth then text
  else text.take (getEllipsisLoop mes text maxWidth 0 text.length) ++ ellipsisChars

lemma getEllipsisLoop_exit (mes : List Char → ℚ) (text : List Char) (maxW : ℚ)
    (left right : ℕ) (h : ¬ left < right) :
    getEllipsisLoop mes text maxW left right = left := by
  rw [getEllipsisLoop, dif_neg h]

lemma getEllipsisLoop_step_fit (mes : List Char → ℚ) (text : List Char) (maxW : ℚ)
    (left right : ℕ) (h : left < right)
    (hfit : mes (text.take ((left + right + 1) / 2) ++ ellipsisChars) ≤ maxW) :
    getEllipsisLoop mes text maxW left right =
      getEllipsisLoop mes text maxW ((left + right + 1) / 2) right := by
  rw [getEllipsisLoop, dif_pos h, if_pos hfit]

lemma getEllipsisLoop_step_nofit (mes : List Char → ℚ) (text : List Char) (maxW : ℚ)
    (left right : ℕ) (h : left < right)
    (hnofit : ¬ mes (text.take ((left + right + 1) / 2) ++ ellipsisChars) ≤ maxW) :
    getEllipsisLoop mes text maxW left right =
      getEllipsisLoop mes text maxW left ((left + right + 1) / 2 - 1) := by
  rw [getEllipsisLoop, dif_pos h, if_neg hnofit]

/-- Correctness of the binary search: starting from a fitting left bound and
a right bound beyond which nothing fits, the loop returns the largest
prefix length (within the text) whose truncation fits. -/
lemma getEllipsisLoop_spec (mes : List Char → ℚ) (text : List Char) (maxW : ℚ)
    (hdc : ∀ i j : ℕ, i ≤ j → mes (text.take j ++ ellipsisChars) ≤ maxW →
      mes (text.take i ++ ellipsisChars) ≤ maxW) :
    ∀ (fuel left right : ℕ), right - left ≤ fuel →
      left ≤ right → right ≤ text.length →
      mes (text.take left ++ ellipsisChars) ≤ maxW →
      (∀ k, right < k → k ≤ text.length →
        ¬ mes (text.take k ++ ellipsisChars) ≤ maxW) →
      mes (text.take (getEllipsisLoop mes text maxW left right) ++ ellipsisChars)
          ≤ maxW ∧
      getEllipsisLoop mes text maxW left right ≤ text.length ∧
      ∀ k, k ≤ text.length → mes (text.take k ++ ellipsisChars) ≤ maxW →
        k ≤ getEllipsisLoop mes text maxW left right := by
  intro fuel
  induction fuel with
  | zero =>
    intro left right hf hlr hrl hP hbeyond
    rw [getEllipsisLoop_exit mes text maxW left right (by omega)]
    refine ⟨hP, by omega, ?_⟩
    intro k hk hPk
    by_contra hkl
    exact hbeyond k (by omega) hk hPk
  | succ n ih =>
    intro left right hf hlr hrl hP hbeyond
    by_cases h : left < right
    · by_cases hfit :
        mes (text.take ((left + right + 1) / 2) ++ ellipsisChars) ≤ maxW
      · rw [getEllipsisLoop_step_fit mes text maxW left right h hfit]
        exact ih ((left + right + 1) / 2) right (by omega) (by omega) hrl
          hfit hbeyond
      · rw [getEllipsisLoop_step_nofit mes text maxW left right h hfit]
        refine ih left ((left + right + 1) / 2 - 1) (by omega) (by omega)
          (by omega) hP ?_
        intro k hk hklen hPk
        by_cases hkr : right < k
        · exact hbeyond k hkr hklen hPk
        · exact hfit (hdc ((left + right + 1) / 2) k (by omega) hPk)
    · rw [getEllipsisLoop_exit mes text maxW left right h]
      refine ⟨hP, by omega, ?_⟩
      intro k hk hPk
      by_contra hkl
      exact hbeyond k (by omega) hk hPk

/-- Claim C3: for every measurement context with monotonic text widths and
every maxWidth at least width("..."): getEllipsisText returns the input text
unchanged whenever its measured width is at most maxWidth (hence truncating
an already-truncated string is idempotent, last conjunct), and otherwise
returns the longest prefix of the text followed by "..." whose measured
width is at most maxWidth. -/
theorem getEllipsisText_spec (ctx : MeasureCtx) (text : List Char) (maxW : ℚ)
    (hell : ctx.mes ellipsisChars ≤ maxW) :
    (ctx.mes text ≤ maxW → getEllipsisText ctx.mes text maxW = text) ∧
    (maxW < ctx.mes text →
      ∃ L, L ≤ text.length ∧
        getEllipsisText ctx.mes text maxW = text.take L ++ ellipsisChars ∧
        ctx.mes (text.take L ++ ellipsisChars) ≤ maxW ∧
        ∀ j, j ≤ text.length → ctx.mes (text.take j ++ ellipsisChars) ≤ maxW →
          j ≤ L) ∧
    getEllipsisText ctx.mes (getEllipsisText ctx.mes text maxW) maxW =
      getEllipsisText ctx.mes text maxW := by
  have hdc : ∀ i j : ℕ, i ≤ j → ctx.mes (text.take j ++ ellipsisChars) ≤ maxW →
      ctx.mes (text.take i ++ ellipsisChars) ≤ maxW := fun i j hij hj =>
    le_trans (ctx.take_mono text ellipsisChars i j hij) hj
  by_cases hfit : ctx.mes text ≤ maxW
  · have hres : getEllipsisText ctx.mes text maxW = text := by
      unfold getEllipsisText
      rw [if_pos hfit]
    refine ⟨fun _ => hres, fun hlt => absurd hfit (not_le.mpr hlt), ?_⟩
    rw [hres, hres]
  · have hspec := getEllipsisLoop_spec ctx.mes text maxW hdc text.length 0
      text.length (by omega) (by omega) (le_refl _)
      (by simpa using hell)
      (fun k hk hklen _ => absurd hklen (not_le.mpr hk))
    have hres : getEllipsisText ctx.mes text maxW =
        text.take (getEllipsisLoop ctx.mes text maxW 0 text.length) ++
          ellipsisChars := by
      unfold getEllipsisText
      rw [if_neg hfit]
    refine ⟨fun h => absurd h hfit, fun _ => ?_, ?_⟩
    · exact ⟨getEllipsisLoop ctx.mes text maxW 0 text.length, hspec.2.1, hres,
        hspec.1, fun j hj hPj => hspec.2.2 j hj hPj⟩
    · rw [hres]
      unfold getEllipsisText
      rw [if_pos hspec.1]

/-- The unit-width measurement context (every character one pixel wide),
used to exercise the truncation theorems on concrete inputs. -/
def lenMes (s : List Char) : ℚ := (s.length : ℚ)

def lenCtx : MeasureCtx where
  mes := lenMes
  take_mono := by
    intro t suf i j hij
    unfold lenMes
    have h : (t.take i ++ suf).length ≤ (t.take j ++ suf).length := by
      simp only [List.length_append, List.length_take]
      omega
    exact_mod_cast h

/-- Witness for C3: the truncation of "abcdef" to width 4 under the
unit-width context is idempotent. -/
theorem getEllipsisText_spec_witness :
    lenCtx.mes ellipsisChars ≤ 4 ∧
    getEllipsisText lenCtx.mes
        (getEllipsisText lenCtx.mes ['a', 'b', 'c', 'd', 'e', 'f'] 4) 4 =
      getEllipsisText lenCtx.mes ['a', 'b', 'c', 'd', 'e', 'f'] 4 :=
  ⟨by decide,
    (getEllipsisText_spec lenCtx ['a', 'b', 'c', 'd', 'e', 'f'] 4 (by decide)).2.2⟩

/-! ## Column width resolver (part_000 lines 144-206)

A column descriptor and the configuration the resolver reads.  A row is
modelled as a total function from column keys to cell text (JS
`String(row[key])`).  The resolver's JS test `if (column.width)` is
zero-falsy, embedded by jsTruthyWidth. -/

structure Column where
  key : ℕ
  title : List Char
  width : Option ℚ
deriving DecidableEq

structure TableCfg where
  columns : List Column
  data : List (ℕ → List Char)
  headerHeight : ℚ
  rowHeight : ℚ
  clientHeight : ℚ
  containerWidth : ℚ

/-- JS truthiness of `column.width` (absent or 0 is falsy). -/
def jsTruthyWidth : Option ℚ → Bool
  | some w => decide (w ≠ 0)
  | none => false

/-- The visible row window of measureCellWidth (part_000 lines 152-156):
indices from floor(scrollTop/rowHeight) to
min(data.length, ceil((scrollTop + clientHeight)/rowHeight)). -/
def visibleRowIdx (cfg : TableCfg) (scrollTop : ℚ) : List ℕ :=
  let s := (⌊scrollTop / cfg.rowHeight⌋).toNat
  let e := min cfg.data.length (⌈(scrollTop + cfg.clientHeight) / cfg.rowHeight⌉).toNat
  List.range' s (e - s)

/-- String(props.data[i][column.key]). -/
def rowText (cfg : TableCfg) (i : ℕ) (key : ℕ) : List Char :=
  match cfg.data[i]? with
  | some r => r key
  | none => []

/-- measureCellWidth (part_000 lines 144-167):
max(headerTitleWidth+40, max over visible rows of cellWidth+40, 150). -/
def measureCellWidth (mes : List Char → ℚ) (cfg : TableCfg) (scrollTop : ℚ)
    (column : Column) : ℚ :=
  let headerWidth := mes column.title + 40
  let maxContentWidth := (visibleRowIdx cfg scrollTop).foldl
    (fun m i => max m (mes (rowText cfg i column.key) + 40)) 0
  max headerWidth (max maxContentWidth 150)

/-- The width reserved in pass 1 of the resolver: declared width for
truthy fixed columns, measured minimum for the rest. -/
def colBaseWidth (mes : List Char → ℚ) (cfg : TableCfg) (scrollTop : ℚ)
    (c : Column) : ℚ :=
  if jsTruthyWidth c.width then c.width.getD 0
  else measureCellWidth mes cfg scrollTop c

/-- totalFixedWidth accumulated in the resolver's first pass. -/
def totalBaseWidth (mes : List Char → ℚ) (cfg : TableCfg) (scrollTop : ℚ) : ℚ :=
  (cfg.columns.map (colBaseWidth mes cfg scrollTop)).sum

/-- Number of flexible columns (flexColumns.length). -/
def flexColumnCount (cfg : TableCfg) : ℕ :=
  (cfg.columns.filter (fun c => ! jsTruthyWidth c.width)).length

/-- showScrollbar computed property as read by the resolver
(part_000 lines 216-220). -/
def tableShowScrollbar (cfg : TableCfg) : Bool :=
  decide (cfg.clientHeight - cfg.headerHeight < (cfg.data.length : ℚ) * cfg.rowHeight)

/-- availableWidth = containerWidth - (showScrollbar ? 12 : 0). -/
def availableWidth (cfg : TableCfg) : ℚ :=
  cfg.containerWidth - (if tableShowScrollbar cfg then 12 else 0)

/-- extraPerColumn = Math.floor(extraSpace / flexColumns.length) when the
slack distribution runs (part_000 lines 196-203), 0 otherwise. -/
def extraPerColumn (mes : List Char → ℚ) (cfg : TableCfg) (scrollTop : ℚ) : ℚ :=
  if 0 < flexColumnCount cfg ∧ totalBaseWidth mes cfg scrollTop < availableWidth cfg
  then ((⌊(availableWidth cfg - totalBaseWidth mes cfg scrollTop) /
      (flexColumnCount cfg : ℚ)⌋ : ℤ) : ℚ)
  else 0

/-- columnWidths computed property (part_000 lines 170-206), as the map
from column index to resolved pixel width. -/
def columnWidths (mes : List Char → ℚ) (cfg : TableCfg) (scrollTop : ℚ)
    (i : ℕ) : ℚ :=
  match cfg.columns[i]? with
  | none => 0
  | some c =>
    if jsTruthyWidth c.width then colBaseWidth mes cfg scrollTop c
    else colBaseWidth mes cfg scrollTop c + extraPerColumn mes cfg scrollTop

lemma foldlMax_init_le (f : ℕ → ℚ) :
    ∀ (l : List ℕ) (a : ℚ), a ≤ l.foldl (fun m i => max m (f i)) a := by
  intro l
  induction l with
  | nil => intro a; exact le_refl a
  | cons x t ih =>
    intro a
    exact le_trans (le_max_left a (f x)) (ih (max a (f x)))

lemma le_foldlMax (f : ℕ → ℚ) :
    ∀ (l : List ℕ) (a : ℚ) (j : ℕ), j ∈ l →
      f j ≤ l.foldl (fun m i => max m (f i)) a := by
  intro l
  induction l with
  | nil => intro a j hj; exact absurd hj (List.not_mem_nil j)
  | cons x t ih =>
    intro a j hj
    rcases List.mem_cons.mp hj with h | h
    · subst h
      exact le_trans (le_max_right a (f j)) (foldlMax_init_le f t _)
    · exact ih _ j h

/-- Counterexample for C2: a column declared with fixed width 0 is not
assigned its declared width — JS `if (column.width)` is falsy at 0, so the
column is treated as flexible and resolved to 150. -/
def zeroWidthCfg : TableCfg :=
  { columns := [⟨0, [], some 0⟩], data := [], headerHeight := 40,
    rowHeight := 30, clientHeight := 100, containerWidth := 0 }

theorem columnWidths_fixed_zero_counterexample :
    (zeroWidthCfg.columns[0]?).map Column.width = some (some 0) ∧
    columnWidths lenMes zeroWidthCfg 0 0 = 150 ∧ (150 : ℚ) ≠ 0 := by
  refine ⟨rfl, ?_, by norm_num⟩
  have hvis : visibleRowIdx zeroWidthCfg 0 = [] := by
    simp [visibleRowIdx, zeroWidthCfg]
  have hm : measureCellWidth lenMes zeroWidthCfg 0 ⟨0, [], some 0⟩ = 150 := by
    simp [measureCellWidth, hvis, lenMes]
    norm_num
  have hb : colBaseWidth lenMes zeroWidthCfg 0 ⟨0, [], some 0⟩ = 150 := by
    simp [colBaseWidth, jsTruthyWidth, hm]
  have hav : availableWidth zeroWidthCfg = 0 := by
    have hsb : tableShowScrollbar zeroWidthCfg = false := by
      rw [tableShowScrollbar, decide_eq_false_iff_not]
      show ¬ ((zeroWidthCfg.clientHeight - zeroWidthCfg.headerHeight) <
        ((zeroWidthCfg.data.length : ℚ) * zeroWidthCfg.rowHeight))
      simp [zeroWidthCfg]
      norm_num
    rw [availableWidth, hsb]
    simp [zeroWidthCfg]
  have ht : totalBaseWidth lenMes zeroWidthCfg 0 = 150 := by
    show (zeroWidthCfg.columns.map (colBaseWidth lenMes zeroWidthCfg 0)).sum = 150
    show ([(⟨0, [], some 0⟩ : Column)].map (colBaseWidth lenMes zeroWidthCfg 0)).sum = 150
    simp [hb]
  have he : extraPerColumn lenMes zeroWidthCfg 0 = 0 := by
    rw [extraPerColumn, if_neg]
    rintro ⟨-, h2⟩
    rw [ht, hav] at h2
    norm_num at h2
  show columnWidths lenMes zeroWidthCfg 0 0 = 150
  have hcol : zeroWidthCfg.columns[0]? = some ⟨0, [], some 0⟩ := rfl
  simp [columnWidths, hcol, jsTruthyWidth, hb, he]

/-- Claim C2 (amended): every column whose declared width is nonzero is
resolved to exactly its declared width and receives no slack; every other
(flexible, including a declared width of 0) column is resolved to its
measured minimum — at least 150, at least headerTitleWidth+40, and at least
cellWidth+40 for every currently visible row — plus, exactly when the sum of
reserved widths is below availableWidth minus the scrollbar reserve,
floor(slack / flexibleCount). -/
theorem columnWidths_resolver_spec (mes : List Char → ℚ) (cfg : TableCfg)
    (st : ℚ) (i : ℕ) (c : Column) (hc : cfg.columns[i]? = some c) :
    (∀ w : ℚ, c.width = some w → w ≠ 0 → columnWidths mes cfg st i = w) ∧
    (jsTruthyWidth c.width = false →
      columnWidths mes cfg st i =
        measureCellWidth mes cfg st c + extraPerColumn mes cfg st ∧
      150 ≤ measureCellWidth mes cfg st c ∧
      mes c.title + 40 ≤ measureCellWidth mes cfg st c ∧
      (∀ j ∈ visibleRowIdx cfg st,
        mes (rowText cfg j c.key) + 40 ≤ measureCellWidth mes cfg st c) ∧
      0 ≤ extraPerColumn mes cfg st ∧
      (totalBaseWidth mes cfg st < availableWidth cfg →
        extraPerColumn mes cfg st =
          ((⌊(availableWidth cfg - totalBaseWidth mes cfg st) /
            (flexColumnCount cfg : ℚ)⌋ : ℤ) : ℚ))) := by
  constructor
  · intro w hw hw0
    have htr : jsTruthyWidth (some w) = true := by
      simp [jsTruthyWidth, hw0]
    simp [columnWidths, hc, hw, htr, colBaseWidth]
  · intro hflex
    have hmem : c ∈ cfg.columns := List.getElem?_mem hc
    refine ⟨?_, ?_, ?_, ?_, ?_, ?_⟩
    · simp [columnWidths, hc, hflex, colBaseWidth]
    · exact le_trans (le_max_right _ 150) (le_max_right _ _)
    · exact le_max_left _ _
    · intro j hj
      exact le_trans (le_trans (le_foldlMax _ _ 0 j hj) (le_max_left _ 150))
        (le_max_right _ _)
    · unfold extraPerColumn
      split
      · next h =>
        have h0 : (0 : ℚ) ≤ (availableWidth cfg - totalBaseWidth mes cfg st) /
            (flexColumnCount cfg : ℚ) := by
          apply div_nonneg
          · linarith [h.2]
          · exact_mod_cast Nat.zero_le _
        exact_mod_cast Int.floor_nonneg.mpr h0
      · exact le_refl 0
    · intro hlt
      have hfc : 0 < flexColumnCount cfg := by
        have hcf : c ∈ cfg.columns.filter (fun c => ! jsTruthyWidth c.width) :=
          List.mem_filter.mpr ⟨hmem, by simp [hflex]⟩
        exact List.length_pos_of_mem hcf
      unfold extraPerColumn
      rw [if_pos ⟨hfc, hlt⟩]

/-- A concrete two-column configuration (one fixed, one flexible) used to
exercise the resolver theorem. -/
def demoFlexCol : Column := ⟨1, ['n', 'a', 'm', 'e'], none⟩

def demoCfg : TableCfg :=
  { columns := [⟨0, ['i', 'd'], some 100⟩, demoFlexCol],
    data := [], headerHeight := 40, rowHeight := 30,
    clientHeight := 200, containerWidth := 500 }

/-- Witness for the amended C2 theorem at the flexible column of demoCfg. -/
theorem columnWidths_resolver_spec_witness :
    demoCfg.columns[1]? = some demoFlexCol ∧
    jsTruthyWidth demoFlexCol.width = false ∧
    columnWidths lenMes demoCfg 0 1 =
      measureCellWidth lenMes demoCfg 0 demoFlexCol +
        extraPerColumn lenMes demoCfg 0 :=
  ⟨by decide, by decide,
    ((columnWidths_resolver_spec lenMes demoCfg 0 1 demoFlexCol
      (by decide)).2 (by decide)).1⟩

/-! ## Hit-testing (part_000 lines 660-684, CanvasTable.vue lines 452-476;
identical in both variants)

getCellFromPoint returns null over the header band; otherwise it returns
an object whose rowIndex is floor((y - headerHeight + scrollTop)/rowHeight)
(never bounds-checked against the row count) and whose columnIndex is
found by left-to-right accumulation, defaulting to the initialisation
value 0 when no column interval contains x.  The returned object is
modelled by its (rowIndex, columnIndex) pair. -/

/-- The column scan loop of getCellFromPoint: columnIndex starts at 0 and
is only reassigned when x falls in [currentX, currentX + width). -/
def findColumnGo (x : ℚ) : List ℚ → ℚ → ℕ → ℕ
  | [], _, _ => 0
  | w :: rest, currentX, i =>
    if currentX ≤ x ∧ x < currentX + w then i
    else findColumnGo x rest (currentX + w) (i + 1)

def findColumnIndex (widths : List ℚ) (x : ℚ) : ℕ :=
  findColumnGo x widths 0 0

def getCellFromPoint (widths : List ℚ)
    (headerHeight rowHeight scrollTop x y : ℚ) : Option (ℤ × ℕ) :=
  if y < headerHeight then none
  else some (⌊(y - headerHeight + scrollTop) / rowHeight⌋,
    findColumnIndex widths x)

/-- handleContextMenu (part_000 lines 612-624): the context-menu
notification (carrying the resolved cell) is emitted exactly when
getCellFromPoint returned a truthy cell object. -/
def handleContextMenu (widths : List ℚ)
    (headerHeight rowHeight scrollTop x y : ℚ) : Option (ℤ × ℕ) :=
  getCellFromPoint widths headerHeight rowHeight scrollTop x y

/-- When x is at or beyond the accumulated width of all remaining columns,
the scan never matches and returns the initialisation value 0. -/
lemma findColumnGo_not_found (x : ℚ) : ∀ (ws : List ℚ) (cX : ℚ) (i : ℕ),
    (∀ w ∈ ws, 0 ≤ w) → cX + ws.sum ≤ x → findColumnGo x ws cX i = 0 := by
  intro ws
  induction ws with
  | nil => intro cX i _ _; rfl
  | cons w rest ih =>
    intro cX i hnn hle
    rw [List.sum_cons] at hle
    have hsum : (0 : ℚ) ≤ rest.sum :=
      List.sum_nonneg fun a ha => hnn a (List.mem_cons_of_mem w ha)
    have hcond : ¬ (cX ≤ x ∧ x < cX + w) := by
      rintro ⟨-, hlt⟩
      linarith
    rw [findColumnGo, if_neg hcond]
    exact ih (cX + w) (i + 1) (fun a ha => hnn a (List.mem_cons_of_mem w ha))
      (by linarith)

/-- When x sits one pixel inside column k (all widths exceeding one pixel),
the scan returns i + k. -/
lemma findColumnGo_hit (x : ℚ) : ∀ (ws : List ℚ) (k : ℕ) (cX : ℚ) (i : ℕ),
    k < ws.length → (∀ w ∈ ws, 1 < w) →
    x = cX + ((ws.take k).sum + 1) →
    findColumnGo x ws cX i = i + k := by
  intro ws
  induction ws with
  | nil => intro k cX i hk _ _; exact absurd hk (by simp)
  | cons w rest ih =>
    intro k cX i hk hw hx
    cases k with
    | zero =>
      simp only [List.take_zero, List.sum_nil, zero_add] at hx
      have hw1 : 1 < w := hw w (List.mem_cons_self w rest)
      rw [findColumnGo, if_pos ⟨by linarith, by linarith⟩]
      omega
    | succ k' =>
      rw [List.take_succ_cons, List.sum_cons] at hx
      have hsum : (0 : ℚ) ≤ (rest.take k').sum := by
        apply List.sum_nonneg
        intro a ha
        have := hw a (List.mem_cons_of_mem w (List.mem_of_mem_take ha))
        linarith
      have hcond : ¬ (cX ≤ x ∧ x < cX + w) := by
        rintro ⟨-, hlt⟩
        rw [hx] at hlt
        linarith
      rw [findColumnGo, if_neg hcond]
      have hlen : k' < rest.length := by
        simp only [List.length_cons] at hk
        omega
      have hres := ih k' (cX + w) (i + 1) hlen
        (fun a ha => hw a (List.mem_cons_of_mem w ha))
        (by rw [hx]; ring)
      rw [hres]
      omega

/-- Claim C5: for every in-bounds cell position whose constructed pointer
coordinate lies at or below the header band (row within the rendered
viewport), the coordinate x = (sum of resolved widths before columnIndex)+1,
y = headerHeight + rowIndex*rowHeight - scrollTop + 1 maps back to exactly
(rowIndex, columnIndex).  Column widths exceed one pixel (the resolver
floors them at 150) and rowHeight exceeds one pixel. -/
theorem getCellFromPoint_roundtrip (widths : List ℚ)
    (headerHeight rowHeight scrollTop : ℚ) (rowIndex columnIndex : ℕ)
    (hw : ∀ w ∈ widths, 1 < w) (hcol : columnIndex < widths.length)
    (hrh : 1 < rowHeight)
    (hst : scrollTop ≤ (rowIndex : ℚ) * rowHeight + 1) :
    getCellFromPoint widths headerHeight rowHeight scrollTop
      ((widths.take columnIndex).sum + 1)
      (headerHeight + (rowIndex : ℚ) * rowHeight - scrollTop + 1) =
    some ((rowIndex : ℤ), columnIndex) := by
  have hrh0 : (0 : ℚ) < rowHeight := by linarith
  have hy : ¬ (headerHeight + (rowIndex : ℚ) * rowHeight - scrollTop + 1 <
      headerHeight) := by
    push_neg
    linarith
  rw [getCellFromPoint, if_neg hy]
  have harg : headerHeight + (rowIndex : ℚ) * rowHeight - scrollTop + 1 -
      headerHeight + scrollTop = (rowIndex : ℚ) * rowHeight + 1 := by ring
  have hrow : ⌊(headerHeight + (rowIndex : ℚ) * rowHeight - scrollTop + 1 -
      headerHeight + scrollTop) / rowHeight⌋ = (rowIndex : ℤ) := by
    rw [harg]
    rw [Int.floor_eq_iff]
    constructor
    · rw [Int.cast_natCast, le_div_iff₀ hrh0]
      linarith
    · rw [Int.cast_natCast, div_lt_iff₀ hrh0]
      nlinarith
  have hcol2 : findColumnIndex widths ((widths.take columnIndex).sum + 1) =
      columnIndex := by
    rw [findColumnIndex]
    have := findColumnGo_hit ((widths.take columnIndex).sum + 1) widths
      columnIndex 0 0 hcol hw (by ring)
    simpa using this
  rw [hrow, hcol2]

/-- Witness for C5 at widths [150, 200], headerHeight 40, rowHeight 30,
scrollTop 10, cell (2, 1). -/
theorem getCellFromPoint_roundtrip_witness :
    getCellFromPoint [(150 : ℚ), 200] 40 30 10
      (([(150 : ℚ), 200].take 1).sum + 1)
      (40 + ((2 : ℕ) : ℚ) * 30 - 10 + 1) = some (((2 : ℕ) : ℤ), 1) :=
  getCellFromPoint_roundtrip [(150 : ℚ), 200] 40 30 10 2 1
    (by intro w hw; fin_cases hw <;> norm_num)
    (by norm_num) (by norm_num) (by push_cast; norm_num)

/-- Counterexample for C6: with two columns of width 150 and x = 300 at the
total width, getCellFromPoint returns columnIndex 0 (the scan's
initialisation value), not the last column (index 1). -/
theorem getCellFromPoint_overflow_counterexample :
    getCellFromPoint [(150 : ℚ), 150] 40 30 0 300 40 = some (0, 0) ∧
    [(150 : ℚ), 150].length - 1 = 1 ∧ (0 : ℕ) ≠ 1 := by
  refine ⟨?_, by norm_num, by norm_num⟩
  rw [getCellFromPoint, if_neg (by norm_num)]
  have hcol : findColumnIndex [(150 : ℚ), 150] 300 = 0 := by
    rw [findColumnIndex]
    apply findColumnGo_not_found
    · intro w hw
      fin_cases hw <;> norm_num
    · norm_num
  rw [hcol]
  norm_num

/-- Claim C6 (amended): for every pointer coordinate with y at or below the
header band and x at or beyond the total resolved width of all (nonnegative)
columns, getCellFromPoint returns the FIRST column (columnIndex = 0, the
loop's initialisation value), not the last one. -/
theorem getCellFromPoint_overflow_first_column (widths : List ℚ)
    (headerHeight rowHeight scrollTop x y : ℚ)
    (hy : ¬ y < headerHeight) (hx : widths.sum ≤ x)
    (hw : ∀ w ∈ widths, 0 ≤ w) :
    getCellFromPoint widths headerHeight rowHeight scrollTop x y =
      some (⌊(y - headerHeight + scrollTop) / rowHeight⌋, 0) := by
  rw [getCellFromPoint, if_neg hy]
  rw [findColumnIndex, findColumnGo_not_found x widths 0 0 hw (by linarith)]

/-- Witness for the amended C6 theorem. -/
theorem getCellFromPoint_overflow_first_column_witness :
    getCellFromPoint [(150 : ℚ), 150] 40 30 0 400 40 =
      some (⌊((40 : ℚ) - 40 + 0) / 30⌋, 0) :=
  getCellFromPoint_overflow_first_column [(150 : ℚ), 150] 40 30 0 400 40
    (by norm_num)
    (by norm_num)
    (by intro w hw; fin_cases hw <;> norm_num)

/-- Counterexample for C9: with one data row (rowCount = 1), a pointer at
y = 1000 resolves to rowIndex 32 ≥ 1, yet handleContextMenu still emits the
context-menu notification — getCellFromPoint returns a truthy object for
every y at or below the header band, regardless of the row count. -/
theorem handleContextMenu_out_of_rows_counterexample :
    (handleContextMenu [(150 : ℚ)] 40 30 0 10 1000).isSome = true ∧
    handleContextMenu [(150 : ℚ)] 40 30 0 10 1000 = some (32, 0) ∧
    ¬ ((32 : ℤ) < 1) := by
  have heval : handleContextMenu [(150 : ℚ)] 40 30 0 10 1000 = some (32, 0) := by
    rw [handleContextMenu, getCellFromPoint, if_neg (by norm_num)]
    have hcol : findColumnIndex [(150 : ℚ)] 10 = 0 := by
      rw [findColumnIndex, findColumnGo]
      rw [if_pos (by norm_num)]
    rw [hcol]
    norm_num
  exact ⟨by rw [heval]; rfl, heval, by norm_num⟩

/-- Claim C9 (amended): on a contextMenu pointer event the notification is
emitted if and only if the pointer is not over the header band
(y ≥ headerHeight); in particular a pointer resolving to a row index at or
beyond the row count still emits the notification (the cell object is
truthy), so consumers must re-validate bounds. -/
theorem handleContextMenu_emits_iff (widths : List ℚ)
    (headerHeight rowHeight scrollTop x y : ℚ) :
    (handleContextMenu widths headerHeight rowHeight scrollTop x y).isSome =
      true ↔ headerHeight ≤ y := by
  rw [handleContextMenu, getCellFromPoint]
  by_cases h : y < headerHeight
  · rw [if_pos h]
    simp only [Option.isSome_none, Bool.false_eq_true, false_iff, not_le]
    exact h
  · rw [if_neg h]
    simp only [Option.isSome_some, true_iff]
    exact not_lt.mp h

/-! ## Column resize interaction (part_000 lines 539-610)

In part_000 the resize branch of handleMouseMove writes the pointer delta
into state.columnWidths, but rendering resolves widths through the
computed columnWidths (lines 170-206), which reads only the descriptors,
the measurement context, scrollTop and the container width — never
state.columnWidths.  (The older CanvasTable.vue variant renders from
state.columnWidths directly.) -/

structure InterState where
  scrollTop : ℚ
  stateColumnWidths : ℕ → Option ℚ
  startX : ℚ
  isResizing : Bool
  resizingColumn : Option ℕ

/-- JS `(state.columnWidths[c] || 150)`: undefined or 0 falls back to 150. -/
def jsOr150 : Option ℚ → ℚ
  | some w => if w = 0 then 150 else w
  | none => 150

/-- The resize branch of handleMouseMove (part_000 lines 565-572):
adds the horizontal delta since the last move to
state.columnWidths[resizingColumn] and re-anchors startX. -/
def handleMouseMoveResize (st : InterState) (offsetX : ℚ) : InterState :=
  match st.isResizing, st.resizingColumn with
  | true, some c =>
    { st with
      stateColumnWidths := fun k =>
        if k = c then
          some (jsOr150 (st.stateColumnWidths c) + (offsetX - st.startX))
        else st.stateColumnWidths k,
      startX := offsetX }
  | _, _ => st

/-- The width actually rendered for column i in part_000: the computed
columnWidths, which depends on the interaction state only through
scrollTop. -/
def renderedWidth (mes : List Char → ℚ) (cfg : TableCfg) (st : InterState)
    (i : ℕ) : ℚ :=
  columnWidths mes cfg st.scrollTop i

lemma handleMouseMoveResize_scrollTop (st : InterState) (offsetX : ℚ) :
    (handleMouseMoveResize st offsetX).scrollTop = st.scrollTop := by
  unfold handleMouseMoveResize
  split <;> rfl

/-- The single flexible column and interaction state used to exhibit the
part_000 resize bug: resizing column 0, anchored at startX = 100. -/
def cfg7 : TableCfg :=
  { columns := [⟨0, ['c', 'o', 'l'], none⟩], data := [], headerHeight := 40,
    rowHeight := 30, clientHeight := 300, containerWidth := 500 }

def st7 : InterState :=
  { scrollTop := 0, stateColumnWidths := fun _ => none, startX := 100,
    isResizing := true, resizingColumn := some 0 }

lemma cfg7_rendered : columnWidths lenMes cfg7 0 0 = 500 := by
  have hvis : visibleRowIdx cfg7 0 = [] := by
    simp [visibleRowIdx, cfg7]
  have hm : measureCellWidth lenMes cfg7 0 ⟨0, ['c', 'o', 'l'], none⟩ = 150 := by
    simp [measureCellWidth, hvis, lenMes]
    norm_num
  have hb : colBaseWidth lenMes cfg7 0 ⟨0, ['c', 'o', 'l'], none⟩ = 150 := by
    simp [colBaseWidth, jsTruthyWidth, hm]
  have hsb : tableShowScrollbar cfg7 = false := by
    rw [tableShowScrollbar, decide_eq_false_iff_not]
    show ¬ ((cfg7.clientHeight - cfg7.headerHeight) <
      ((cfg7.data.length : ℚ) * cfg7.rowHeight))
    simp [cfg7]
    norm_num
  have hav : availableWidth cfg7 = 500 := by
    rw [availableWidth, hsb]
    simp [cfg7]
  have ht : totalBaseWidth lenMes cfg7 0 = 150 := by
    show (cfg7.columns.map (colBaseWidth lenMes cfg7 0)).sum = 150
    show ([(⟨0, ['c', 'o', 'l'], none⟩ : Column)].map
      (colBaseWidth lenMes cfg7 0)).sum = 150
    simp [hb]
  have hfc : flexColumnCount cfg7 = 1 := rfl
  have he : extraPerColumn lenMes cfg7 0 = 350 := by
    rw [extraPerColumn, if_pos ⟨by rw [hfc]; norm_num, by rw [ht, hav]; norm_num⟩,
      ht, hav, hfc]
    norm_num
  have hcol : cfg7.columns[0]? = some ⟨0, ['c', 'o', 'l'], none⟩ := rfl
  rw [columnWidths, hcol]
  simp only [jsTruthyWidth, Bool.false_eq_true, if_false]
  rw [hb, he]
  norm_num

/-- Claim C7 is false on part_000 (code bug): a ResizingColumn pointerMove
with horizontal delta 50 (startX 100 → offsetX 150) updates the dead
state.columnWidths map (none → some 200) but leaves the rendered (resolved)
width of the resized column unchanged at 500 instead of increasing it to
500 + 50; the computed columnWidths never reads state.columnWidths. -/
theorem resizing_rendered_width_unchanged :
    renderedWidth lenMes cfg7 st7 0 = 500 ∧
    renderedWidth lenMes cfg7 (handleMouseMoveResize st7 150) 0 = 500 ∧
    (handleMouseMoveResize st7 150).stateColumnWidths 0 = some 200 ∧
    (500 : ℚ) ≠ 500 + (150 - (100 : ℚ)) := by
  refine ⟨?_, ?_, ?_, by norm_num⟩
  · exact cfg7_rendered
  · rw [renderedWidth, handleMouseMoveResize_scrollTop]
    exact cfg7_rendered
  · show (handleMouseMoveResize st7 150).stateColumnWidths 0 = some 200
    simp [handleMouseMoveResize, st7, jsOr150]
    norm_num

/-! ## Width monotonicity under scrolling (C8)

measureCellWidth measures only the currently visible row window, so a
flexible column's resolved width is a function of the current window: it
shrinks back as soon as a wide row scrolls out of the window. -/

def wideRow : ℕ → List Char := fun _ => List.replicate 200 'x'

def narrowRow : ℕ → List Char := fun _ => ['a']

/-- Ten rows at rowHeight 30 in a 90px-tall container: row 0 carries a
200-character cell, the rest are one character wide. -/
def cfg8 : TableCfg :=
  { columns := [⟨0, ['t'], none⟩],
    data := wideRow :: List.replicate 9 narrowRow,
    headerHeight := 40, rowHeight := 30, clientHeight := 90,
    containerWidth := 100 }

lemma cfg8_data_length : cfg8.data.length = 10 := by
  simp [cfg8]

lemma visibleRowIdx_eval (cfg : TableCfg) (st : ℚ) (s e : ℕ)
    (hs : (⌊st / cfg.rowHeight⌋).toNat = s)
    (he : min cfg.data.length
      (⌈(st + cfg.clientHeight) / cfg.rowHeight⌉).toNat = e) :
    visibleRowIdx cfg st = List.range' s (e - s) := by
  rw [visibleRowIdx, hs, he]

lemma cfg8_vis0 : visibleRowIdx cfg8 0 = [0, 1, 2] := by
  have h := visibleRowIdx_eval cfg8 0 0 3 ?_ ?_
  · rw [h]
    simp [List.range']
  · norm_num [cfg8]
  · rw [cfg8_data_length]
    have hc : ((0 : ℚ) + cfg8.clientHeight) / cfg8.rowHeight = ((3 : ℤ) : ℚ) := by
      simp [cfg8]
      norm_num
    rw [hc, Int.ceil_intCast]
    decide

lemma cfg8_vis90 : visibleRowIdx cfg8 90 = [3, 4, 5] := by
  have h := visibleRowIdx_eval cfg8 90 3 6 ?_ ?_
  · rw [h]
    simp [List.range']
  · have hf : (90 : ℚ) / cfg8.rowHeight = ((3 : ℤ) : ℚ) := by
      simp [cfg8]
      norm_num
    rw [hf, Int.floor_intCast]
    decide
  · rw [cfg8_data_length]
    have hc : ((90 : ℚ) + cfg8.clientHeight) / cfg8.rowHeight = ((6 : ℤ) : ℚ) := by
      simp [cfg8]
      norm_num
    rw [hc, Int.ceil_intCast]
    decide

lemma cfg8_row0 : rowText cfg8 0 0 = List.replicate 200 'x' := by
  simp [rowText, cfg8, wideRow]

lemma cfg8_row_narrow (i : ℕ) (h1 : 1 ≤ i) (h2 : i ≤ 9) :
    rowText cfg8 i 0 = ['a'] := by
  rw [rowText]
  have : cfg8.data[i]? = some narrowRow := by
    show (wideRow :: List.replicate 9 narrowRow)[i]? = some narrowRow
    match i, h1, h2 with
    | 1, _, _ => rfl
    | 2, _, _ => rfl
    | 3, _, _ => rfl
    | 4, _, _ => rfl
    | 5, _, _ => rfl
    | 6, _, _ => rfl
    | 7, _, _ => rfl
    | 8, _, _ => rfl
    | 9, _, _ => rfl
  rw [this]
  rfl

lemma cfg8_width_at_0 : columnWidths lenMes cfg8 0 0 = 240 := by
  have hfold : measureCellWidth lenMes cfg8 0 ⟨0, ['t'], none⟩ = 240 := by
    rw [measureCellWidth, cfg8_vis0]
    show max (lenMes ['t'] + 40)
      (max ([0, 1, 2].foldl
        (fun m i => max m (lenMes (rowText cfg8 i 0) + 40)) 0) 150) = 240
    rw [show ([0, 1, 2] : List ℕ) = [0] ++ [1, 2] from rfl]
    rw [List.foldl_append]
    rw [show ([0] : List ℕ).foldl
        (fun m i => max m (lenMes (rowText cfg8 i 0) + 40)) 0 =
        max 0 (lenMes (rowText cfg8 0 0) + 40) from rfl]
    rw [cfg8_row0, List.foldl_cons, List.foldl_cons, List.foldl_nil,
      cfg8_row_narrow 1 (by norm_num) (by norm_num),
      cfg8_row_narrow 2 (by norm_num) (by norm_num)]
    have hw200 : lenMes (List.replicate 200 'x') = 200 := by
      rw [lenMes, List.length_replicate]
      norm_num
    have ha1 : lenMes ['a'] = 1 := by
      rw [lenMes]
      norm_num
    have ht1 : lenMes ['t'] = 1 := by
      rw [lenMes]
      norm_num
    rw [hw200, ha1, ht1]
    norm_num [max_def]
  have hb : colBaseWidth lenMes cfg8 0 ⟨0, ['t'], none⟩ = 240 := by
    simp [colBaseWidth, jsTruthyWidth, hfold]
  have hsb : tableShowScrollbar cfg8 = true := by
    rw [tableShowScrollbar, decide_eq_true_eq]
    show (cfg8.clientHeight - cfg8.headerHeight) <
      ((cfg8.data.length : ℚ) * cfg8.rowHeight)
    rw [cfg8_data_length]
    show (90 : ℚ) - 40 < (10 : ℕ) * (30 : ℚ)
    push_cast
    norm_num
  have hav : availableWidth cfg8 = 88 := by
    rw [availableWidth, hsb]
    show cfg8.containerWidth - 12 = 88
    show (100 : ℚ) - 12 = 88
    norm_num
  have ht : totalBaseWidth lenMes cfg8 0 = 240 := by
    show (cfg8.columns.map (colBaseWidth lenMes cfg8 0)).sum = 240
    show ([(⟨0, ['t'], none⟩ : Column)].map (colBaseWidth lenMes cfg8 0)).sum = 240
    simp [hb]
  have he : extraPerColumn lenMes cfg8 0 = 0 := by
    rw [extraPerColumn, if_neg]
    rintro ⟨-, h2⟩
    rw [ht, hav] at h2
    norm_num at h2
  have hcol : cfg8.columns[0]? = some ⟨0, ['t'], none⟩ := rfl
  rw [columnWidths, hcol]
  simp only [jsTruthyWidth, Bool.false_eq_true, if_false]
  rw [hb, he]
  norm_num

lemma cfg8_width_at_90 : columnWidths lenMes cfg8 90 0 = 150 := by
  have hfold : measureCellWidth lenMes cfg8 90 ⟨0, ['t'], none⟩ = 150 := by
    rw [measureCellWidth, cfg8_vis90]
    show max (lenMes ['t'] + 40)
      (max ([3, 4, 5].foldl
        (fun m i => max m (lenMes (rowText cfg8 i 0) + 40)) 0) 150) = 150
    rw [List.foldl_cons, List.foldl_cons, List.foldl_cons, List.foldl_nil,
      cfg8_row_narrow 3 (by norm_num) (by norm_num),
      cfg8_row_narrow 4 (by norm_num) (by norm_num),
      cfg8_row_narrow 5 (by norm_num) (by norm_num)]
    have ha1 : lenMes ['a'] = 1 := by
      rw [lenMes]
      norm_num
    have ht1 : lenMes ['t'] = 1 := by
      rw [lenMes]
      norm_num
    rw [ha1, ht1]
    norm_num [max_def]
  have hb : colBaseWidth lenMes cfg8 90 ⟨0, ['t'], none⟩ = 150 := by
    simp [colBaseWidth, jsTruthyWidth, hfold]
  have hsb : tableShowScrollbar cfg8 = true := by
    rw [tableShowScrollbar, decide_eq_true_eq]
    show (cfg8.clientHeight - cfg8.headerHeight) <
      ((cfg8.data.length : ℚ) * cfg8.rowHeight)
    rw [cfg8_data_length]
    show (90 : ℚ) - 40 < (10 : ℕ) * (30 : ℚ)
    push_cast
    norm_num
  have hav : availableWidth cfg8 = 88 := by
    rw [availableWidth, hsb]
    show cfg8.containerWidth - 12 = 88
    show (100 : ℚ) - 12 = 88
    norm_num
  have ht : totalBaseWidth lenMes cfg8 90 = 150 := by
    show (cfg8.columns.map (colBaseWidth lenMes cfg8 90)).sum = 150
    show ([(⟨0, ['t'], none⟩ : Column)].map (colBaseWidth lenMes cfg8 90)).sum = 150
    simp [hb]
  have he : extraPerColumn lenMes cfg8 90 = 0 := by
    rw [extraPerColumn, if_neg]
    rintro ⟨-, h2⟩
    rw [ht, hav] at h2
    norm_num at h2
  have hcol : cfg8.columns[0]? = some ⟨0, ['t'], none⟩ := rfl
  rw [columnWidths, hcol]
  simp only [jsTruthyWidth, Bool.false_eq_true, if_false]
  rw [hb, he]
  norm_num

/-- Counterexample for C8: the flexible column resolves to 240 while the
200-character row 0 is in the visible window (scrollTop 0), and shrinks
back to 150 after scrolling to scrollTop 90 (window rows 3-5) — widths do
shrink once the wide cell leaves the window, with no forced recompute. -/
theorem columnWidths_shrink_counterexample :
    columnWidths lenMes cfg8 0 0 = 240 ∧
    columnWidths lenMes cfg8 90 0 = 150 ∧ (150 : ℚ) < 240 :=
  ⟨cfg8_width_at_0, cfg8_width_at_90, by norm_num⟩

/-- Claim C8 (amended): a flexible column's resolved width is determined by
the currently visible row window alone — it grows when a wide cell enters
the window and can shrink again once the wide cell leaves it; two scroll
positions with the same visible window always resolve the same widths
(there is no once-grown persistence or caching of past windows). -/
theorem columnWidths_window_determined (mes : List Char → ℚ) (cfg : TableCfg)
    (st st' : ℚ) (h : visibleRowIdx cfg st = visibleRowIdx cfg st') (i : ℕ) :
    columnWidths mes cfg st i = columnWidths mes cfg st' i := by
  have hmw : ∀ c : Column,
      measureCellWidth mes cfg st c = measureCellWidth mes cfg st' c := by
    intro c
    rw [measureCellWidth, measureCellWidth, h]
  have hcb : ∀ c : Column,
      colBaseWidth mes cfg st c = colBaseWidth mes cfg st' c := by
    intro c
    rw [colBaseWidth, colBaseWidth, hmw c]
  have htb : totalBaseWidth mes cfg st = totalBaseWidth mes cfg st' := by
    rw [totalBaseWidth, totalBaseWidth]
    congr 1
    exact List.map_congr_left fun c _ => hcb c
  have hex : extraPerColumn mes cfg st = extraPerColumn mes cfg st' := by
    rw [extraPerColumn, extraPerColumn, htb]
  rw [columnWidths, columnWidths]
  cases hc : cfg.columns[i]? with
  | none => rfl
  | some c =>
    dsimp only
    rw [hcb c, hex]

/-- cfg8 with a 100px-tall container: scrollTop 0 and scrollTop 10 see the
same window (rows 0-3). -/
def cfg8t : TableCfg :=
  { columns := [⟨0, ['t'], none⟩],
    data := wideRow :: List.replicate 9 narrowRow,
    headerHeight := 40, rowHeight := 30, clientHeight := 100,
    containerWidth := 100 }

lemma cfg8t_vis_eq : visibleRowIdx cfg8t 0 = visibleRowIdx cfg8t 10 := by
  have hlen : cfg8t.data.length = 10 := by simp [cfg8t]
  have h0 := visibleRowIdx_eval cfg8t 0 0 4 ?_ ?_
  · have h10 := visibleRowIdx_eval cfg8t 10 0 4 ?_ ?_
    · rw [h0, h10]
    · norm_num [cfg8t]
    · rw [hlen]
      have hc : ((10 : ℚ) + cfg8t.clientHeight) / cfg8t.rowHeight = 11 / 3 := by
        simp [cfg8t]
        norm_num
      rw [hc]
      rw [show ⌈(11 : ℚ) / 3⌉ = 4 by rw [Int.ceil_eq_iff]; norm_num]
      decide
  · norm_num [cfg8t]
  · rw [hlen]
    have hc : ((0 : ℚ) + cfg8t.clientHeight) / cfg8t.rowHeight = 10 / 3 := by
      simp [cfg8t]
      norm_num
    rw [hc]
    rw [show ⌈(10 : ℚ) / 3⌉ = 4 by rw [Int.ceil_eq_iff]; norm_num]
    decide

/-- Witness for the amended C8 theorem: scroll positions 0 and 10 of cfg8t
share the visible window, hence resolve the same width. -/
theorem columnWidths_window_determined_witness :
    visibleRowIdx cfg8t 0 = visibleRowIdx cfg8t 10 ∧
    columnWidths lenMes cfg8t 0 0 = columnWidths lenMes cfg8t 10 0 :=
  ⟨cfg8t_vis_eq, columnWidths_window_determined lenMes cfg8t 0 10 cfg8t_vis_eq 0⟩

/-! ## Multi-line wrap mode of drawRows (part_000 lines 469-517)

text.split with lookarounds splits at every boundary whose neighbour is a
CJK ideograph ([一-龥]) or a \s whitespace character; the wrap loop
accumulates segments into lines, pushes on overflow, and on reaching
maxLines trims the pending segment and appends '...' before breaking.  The
character-by-character trim while-loop (lines 493-495) is embedded with
explicit fuel (trimFuel); with fuel line.length + 1 it reproduces every
terminating execution, and the loop's termination itself is the subject of
trimLoopTerminates below (the JS loop runs forever when even the empty
line fails the exit test, since ''.slice(0,-1) is ''). -/

/-- The CJK ideograph range of the split regex. -/
def isCJKChar (c : Char) : Bool :=
  0x4e00 ≤ c.toNat && c.toNat ≤ 0x9fa5

/-- The JS regex \s whitespace class. -/
def isJsSpaceChar (c : Char) : Bool :=
  c = '\u0009' || c = '\u000a' || c = '\u000b' || c = '\u000c' || c = '\u000d' ||
  c = '\u0020' || c = '\u00a0' || c = '\u1680' ||
  (0x2000 ≤ c.toNat && c.toNat ≤ 0x200a) ||
  c = '\u2028' || c = '\u2029' || c = '\u202f' || c = '\u205f' ||
  c = '\u3000' || c = '\ufeff'

/-- A segment boundary of the split regex lies before/after any CJK
ideograph and before/after any whitespace character. -/
def isBreakChar (c : Char) : Bool := isCJKChar c || isJsSpaceChar c

def splitWordsGo (prev : Char) (acc : List Char) : List Char → List (List Char)
  | [] => [acc]
  | c :: rest =>
    if isBreakChar prev || isBreakChar c then
      acc :: splitWordsGo c [c] rest
    else
      splitWordsGo c (acc ++ [c]) rest

/-- `text.split(/(?<=[一-龥])|(?=[一-龥])|(?<=\s)|(?=\s)/)`;
the empty string splits to [""] in JS. -/
def splitWords : List Char → List (List Char)
  | [] => [[]]
  | c :: rest => splitWordsGo c [c] rest

/-- The trim while-loop body with explicit fuel: while
width(line + '...') > maxWidth, drop the last character. -/
def trimFuel (mes : List Char → ℚ) (maxW : ℚ) : ℕ → List Char → List Char
  | 0, line => line
  | n + 1, line =>
    if maxW < mes (line ++ ellipsisChars) then trimFuel mes maxW n line.dropLast
    else line

/-- The wrap for-of loop (part_000 lines 481-503): testLine overflow pushes
currentLine, and on reaching maxLines the loop breaks, trimming and
appending '...' to the pending segment only when more segments follow
(per words.indexOf(word)). -/
def wrapGo (mes : List Char → ℚ) (maxW : ℚ) (maxLines : ℕ)
    (allWords : List (List Char)) :
    List (List Char) → List (List Char) → List Char →
    List (List Char) × List Char
  | [], lines, currentLine => (lines, currentLine)
  | word :: rest, lines, currentLine =>
    if maxW < mes (currentLine ++ word) ∧ currentLine ≠ [] then
      let lines2 := lines ++ [currentLine]
      if maxLines ≤ lines2.length then
        if List.indexOf word allWords + 1 < allWords.length then
          (lines2, trimFuel mes maxW (word.length + 1) word ++ ellipsisChars)
        else (lines2, word)
      else wrapGo mes maxW maxLines allWords rest lines2 word
    else wrapGo mes maxW maxLines allWords rest lines (currentLine ++ word)

/-- The produced lines: the loop result plus the final
`if (currentLine && lines.length < maxLines) lines.push(currentLine)`. -/
def wrapWords (mes : List Char → ℚ) (maxW : ℚ) (maxLines : ℕ)
    (words : List (List Char)) : List (List Char) :=
  let r := wrapGo mes maxW maxLines words words [] []
  if r.2 ≠ [] ∧ r.1.length < maxLines then r.1 ++ [r.2] else r.1

/-- The wrap branch of drawRows for one cell: padding 10, lineHeight 20,
maxWidth = width - 2*padding, maxLines = floor((rowHeight - 2*padding)/20). -/
def cellWrapLines (mes : List Char → ℚ) (width rowHeight : ℚ)
    (text : List Char) : List (List Char) :=
  wrapWords mes (width - 20) (⌊(rowHeight - 20) / 20⌋).toNat (splitWords text)

/-- The failing input for C4: "aaa bbb ccc". -/
def c4text : List Char :=
  ['a', 'a', 'a', ' ', 'b', 'b', 'b', ' ', 'c', 'c', 'c']

/-- Claim C4 fails on the code (code bug): with unit character widths,
column width 23 (maxWidth 3) and rowHeight 40 (maxLines 1), the text
"aaa bbb ccc" needs more than maxLines lines (it does not even fit one),
yet the produced lines are just ["aaa"] — the last produced line does not
end with "...".  The loop computes the trimmed line "..." into currentLine
and breaks, but the final push is guarded by lines.length < maxLines,
which is false after the break, so the ellipsis line is discarded. -/
theorem wrap_last_line_missing_ellipsis :
    cellWrapLines lenMes 23 40 c4text = [['a', 'a', 'a']] ∧
    List.isSuffixOf ellipsisChars ['a', 'a', 'a'] = false ∧
    3 < lenMes c4text := by
  have hml : (⌊((40 : ℚ) - 20) / 20⌋).toNat = 1 := by
    rw [show ((40 : ℚ) - 20) / 20 = ((1 : ℤ) : ℚ) by norm_num, Int.floor_intCast]
    rfl
  refine ⟨?_, by decide, by decide⟩
  unfold cellWrapLines
  rw [show (23 : ℚ) - 20 = 3 by norm_num, hml]
  decide

/-! ## Termination of the trim loop (C10)

The while-loop `while (measure(line + '...') > maxWidth) line = line.slice(0,-1)`
has state dropLast^[n] line after n iterations; it terminates exactly when
some iterate passes the exit test. -/

def trimLoopTerminates (mes : List Char → ℚ) (maxW : ℚ)
    (line : List Char) : Prop :=
  ∃ n : ℕ, mes (List.dropLast^[n] line ++ ellipsisChars) ≤ maxW

lemma iterate_dropLast_eq_nil : ∀ (n : ℕ) (l : List Char), l.length = n →
    List.dropLast^[n] l = [] := by
  intro n
  induction n with
  | zero =>
    intro l h
    rw [List.length_eq_zero] at h
    rw [h]
    rfl
  | succ n ih =>
    intro l h
    rw [Function.iterate_succ_apply]
    apply ih
    rw [List.length_dropLast, h]
    omega

/-- Counterexample for C10: at maxWidth 0 < width("...") = 3 (unit widths)
the trim loop never terminates on the empty line — every iterate is the
empty line and the exit test width("...") ≤ 0 always fails, so the claim
that the loop terminates for every maxWidth (even maxWidth < width("..."))
is false. -/
theorem trimLoop_nonterminating_counterexample :
    ¬ trimLoopTerminates lenMes 0 [] := by
  rintro ⟨n, h⟩
  have hfix : List.dropLast^[n] ([] : List Char) = [] :=
    Function.iterate_fixed rfl n
  rw [hfix] at h
  norm_num [lenMes, ellipsisChars] at h

/-- Claim C10 (amended): the trim loop terminates for every input line and
every maxWidth at least width("..."): after at most line.length iterations
the line is empty and the exit test width("" + "...") ≤ maxWidth passes.
(For maxWidth < width("...") the loop does not terminate, per the
counterexample.) -/
theorem trimLoop_terminates_of_ellipsis_fits (mes : List Char → ℚ)
    (maxW : ℚ) (line : List Char) (h : mes ellipsisChars ≤ maxW) :
    trimLoopTerminates mes maxW line :=
  ⟨line.length, by
    rw [iterate_dropLast_eq_nil line.length line rfl]
    simpa using h⟩

/-- Witness for the amended C10 theorem. -/
theorem trimLoop_terminates_witness :
    lenMes ellipsisChars ≤ 3 ∧ trimLoopTerminates lenMes 3 ['a', 'b'] :=
  ⟨by decide, trimLoop_terminates_of_ellipsis_fits lenMes 3 ['a', 'b'] (by decide)⟩

end CanvasTable
